import Mathlib

/-!
Verification development for the TekAwg driver (TekAwg.py).

This file gives a shallow embedding of the core of the driver:

* the waveform codec (`bifloat_to_uint`, `uint_to_bifloat`,
  `merge_arb_and_markers`, `unmerge_arb_and_markers`),
* the block framer (`create_header`, modelling `create_prefix`, and the
  header parsing done inline in `__get_waveform_data`),
* the command/response transaction engine (`write`, modelling
  `TekAwg.write` / `TekAwg.__write_helper`),
* the chunked upload protocol (`newWaveformBlocks` and `blockUploadLoop`,
  modelling `TekAwg.__new_waveform_int`),

and proves or refutes the specification's claims about them.

Modelling conventions:

* Python floats are modelled as rationals (`ℚ`); the divergences proved
  below are robust under floating-point rounding (they are witnessed at
  values far away from representation boundaries).
* Python's `int(x)` truncation toward zero is `pyInt`.
* NumPy `astype("<u2")` (int64 → uint16) is reduction mod 2 ^ 16 (`toU16`).
* Python exceptions are modelled with `Except`.
* The TCP connection is modelled as the list of results of successive
  `recv` calls: `some chunk` delivers bytes, `none` is a `socket.timeout`;
  an exhausted list times out as well.
-/

/-! ### Waveform codec -/

/-- Python's `int()` conversion applied to a float: truncation toward zero
(floor for nonnegative arguments, ceiling for negative ones). -/
def pyInt (q : ℚ) : ℤ := if 0 ≤ q then ⌊q⌋ else ⌈q⌉

/-- The module-level table `_bit_depth_mult_offset` of TekAwg.py:
`(multiplier, offset)` per supported bit depth; `none` models a `KeyError`
for an unsupported depth. -/
def bit_depth_mult_offset (bit_depth : ℕ) : Option (ℤ × ℤ) :=
  if bit_depth = 8 then some (254, 127)
  else if bit_depth = 12 then some (4094, 2047)
  else if bit_depth = 14 then some (16382, 8191)
  else if bit_depth = 16 then some (65534, 32767)
  else none

/-- Error raised by the codec conversions: the `ValueError` for a bit depth
outside the table's key set. -/
inductive CodecError where
  | unsupportedBitDepth
deriving DecidableEq, Repr

/-- Scalar path of `bifloat_to_uint` in TekAwg.py:
`int(value * mult + offset)` after looking up the bit-depth profile. -/
def bifloat_to_uint (value : ℚ) (bit_depth : ℕ) : Except CodecError ℤ :=
  match bit_depth_mult_offset bit_depth with
  | none => .error .unsupportedBitDepth
  | some (mult, offset) => .ok (pyInt (value * (mult : ℚ) + (offset : ℚ)))

/-- List path of `bifloat_to_uint` in TekAwg.py:
`[int(val * mult + offset) for val in val_iter]`. -/
def bifloat_to_uint_list (values : List ℚ) (bit_depth : ℕ) : Except CodecError (List ℤ) :=
  match bit_depth_mult_offset bit_depth with
  | none => .error .unsupportedBitDepth
  | some (mult, offset) => .ok (values.map fun v => pyInt (v * (mult : ℚ) + (offset : ℚ)))

/-- The ndarray path of `bifloat_to_uint` in TekAwg.py:
`np.multiply(value, mult, output, casting='unsafe')` truncates each product
toward zero into an integer array, and only then adds the offset
(`output += offset`).  This is the path `merge_arb_and_markers` uses. -/
def bifloat_to_uint_np (values : List ℚ) (bit_depth : ℕ) : Except CodecError (List ℤ) :=
  match bit_depth_mult_offset bit_depth with
  | none => .error .unsupportedBitDepth
  | some (mult, offset) => .ok (values.map fun v => pyInt (v * (mult : ℚ)) + offset)

/-- Scalar path of `uint_to_bifloat` in TekAwg.py:
`float((value - offset) / float(mult))`. -/
def uint_to_bifloat (value : ℤ) (bit_depth : ℕ) : Except CodecError ℚ :=
  match bit_depth_mult_offset bit_depth with
  | none => .error .unsupportedBitDepth
  | some (mult, offset) => .ok (((value : ℚ) - (offset : ℚ)) / (mult : ℚ))

/-- List path of `uint_to_bifloat` in TekAwg.py (elementwise affine inverse). -/
def uint_to_bifloat_list (values : List ℤ) (bit_depth : ℕ) : Except CodecError (List ℚ) :=
  match bit_depth_mult_offset bit_depth with
  | none => .error .unsupportedBitDepth
  | some (mult, offset) => .ok (values.map fun v => ((v : ℚ) - (offset : ℚ)) / (mult : ℚ))

/-- NumPy `astype("<u2")` applied to a (possibly negative) integer code:
reduction modulo 2 ^ 16. -/
def toU16 (z : ℤ) : ℕ := (z % 65536).toNat

/-- Errors raised by `merge_arb_and_markers`: the two `ValueError`s and
`UnequalPatternLengths`. -/
inductive MergeError where
  | unsupportedBitDepth
  | noInputSupplied
  | unequalPatternLengths
deriving DecidableEq, Repr

/-- One packed sample word as built inside `merge_arb_and_markers`:
the uint16 amplitude code OR-ed with marker 1 shifted to bit 14 and
marker 2 shifted to bit 15. -/
def packWord (code : ℤ) (m1 m2 : Bool) : ℕ :=
  toU16 code ||| ((if m1 then 1 else 0) <<< 14) ||| ((if m2 then 1 else 0) <<< 15)

/-- Model of `merge_arb_and_markers(arb, mk1, mk2, bit_depth)`.

Optional inputs are `Option` lists (`none` models an omitted argument).
Markers are supplied as integer sequences and coerced to booleans by
`astype(bool)` (nonzero means on).  The checks are performed in source
order: unsupported bit depth first, then the all-omitted check, then the
length comparison over the zero-filled sequences.  The amplitude codes are
produced by the ndarray path of `bifloat_to_uint` (truncate the product,
then add the offset) and cast to uint16 before the marker bits are OR-ed
in. -/
def merge_arb_and_markers (arb : Option (List ℚ)) (mk1 mk2 : Option (List ℤ))
    (bit_depth : ℕ) : Except MergeError (List ℕ) :=
  if bit_depth ≠ 8 ∧ bit_depth ≠ 14 then .error .unsupportedBitDepth
  else if arb = none ∧ mk1 = none ∧ mk2 = none then .error .noInputSupplied
  else
    let seq_len : ℕ :=
      match arb, mk1, mk2 with
      | some a, _, _ => a.length
      | none, some m, _ => m.length
      | none, none, m => (m.getD []).length
    let arbF : List ℚ := arb.getD (List.replicate seq_len 0)
    let mk1F : List Bool :=
      match mk1 with
      | some m => m.map (· != 0)
      | none => List.replicate seq_len false
    let mk2F : List Bool :=
      match mk2 with
      | some m => m.map (· != 0)
      | none => List.replicate seq_len false
    if arbF.length ≠ mk1F.length ∨ mk1F.length ≠ mk2F.length then
      .error .unequalPatternLengths
    else
      match bit_depth_mult_offset bit_depth with
      | none => .error .unsupportedBitDepth
      | some (mult, offset) =>
        .ok (List.zipWith
          (fun v (mk : Bool × Bool) => packWord (pyInt (v * (mult : ℚ)) + offset) mk.1 mk.2)
          arbF (mk1F.zip mk2F))

/-- Model of `unmerge_arb_and_markers(codes)`: amplitude = bits 0-13
(`& (2**14 - 1)`), marker 1 = bit 14 nonzero, marker 2 = bit 15 nonzero. -/
def unmerge_arb_and_markers (codes : List ℕ) : List ℕ × List Bool × List Bool :=
  (codes.map (fun c => c &&& (2 ^ 14 - 1)),
   codes.map (fun c => (c &&& 2 ^ 14) != 0),
   codes.map (fun c => (c &&& 2 ^ 15) != 0))

/-! ### Block framer -/

/-- Value of a single ASCII digit character, modelling Python's `int(c)`
for `c` in `'0'..'9'`. -/
def digitVal (c : Char) : ℕ := c.toNat - 48

/-- Python's `int(s)` on a string of decimal digits (given here as the
character list of the string). -/
def parseDigits (cs : List Char) : ℕ := cs.foldl (fun a c => a * 10 + digitVal c) 0

/-- Model of `create_prefix(data)` from TekAwg.py, as a function of the
payload byte length `n = len(data)`:
`"#" + str(len(list(str(n)))) + str(n)`, i.e. a hash mark, the decimal
digit count of `n`, then `n` itself in decimal. -/
def create_header (n : ℕ) : String :=
  "#" ++ Nat.repr (Nat.repr n).length ++ Nat.repr n

/-- Model of the header parsing inlined in `TekAwg.__get_waveform_data`:
`num_digits = int(raw[1])` and `length = int(raw[2:2+num_digits])`.
Returns `(digit count, payload byte length)`; the header occupies
`2 + num_digits` bytes of the buffer. -/
def parseHeader (raw : String) : ℕ × ℕ :=
  (digitVal (raw.data.getD 1 '0'),
   parseDigits ((raw.data.drop 2).take (digitVal (raw.data.getD 1 '0'))))

/-! ### Transaction engine -/

/-- The `while` condition of `TekAwg.__write_helper`, deciding that an
accumulated response is still incomplete:
`len(response.split(";")) < expected_length or len(response) < 1 or
response[-1] != "\n"`.
Python's `len(s.split(";"))` equals the number of `';'` occurrences plus
one, which is how the field count is computed here. -/
def respIncomplete (response : String) (expected_length : ℕ) : Bool :=
  decide ((response.data.filter (· == ';')).length + 1 < expected_length)
    || decide (response.data.length < 1)
    || (response.data.getLast? != some '\n')

/-- The receive-and-accumulate loop of `TekAwg.__write_helper`: keep
concatenating `recv` results while the response is incomplete.  `reads` is
the remaining schedule of `recv` outcomes; `none` (or an exhausted
schedule) is a `socket.timeout`.  Returns the completed response (or
`none` on timeout) together with the unconsumed part of the schedule. -/
def recvLoop (reads : List (Option String)) (response : String) (expected_length : ℕ) :
    Option String × List (Option String) :=
  if respIncomplete response expected_length then
    match reads with
    | [] => (none, [])
    | none :: rest => (none, rest)
    | some chunk :: rest => recvLoop rest (response ++ chunk) expected_length
  else (some response, reads)

/-- Python's `str.strip()`: remove leading and trailing whitespace. -/
def pyStrip (s : String) : String :=
  ⟨((s.data.dropWhile Char.isWhitespace).reverse.dropWhile Char.isWhitespace).reverse⟩

/-- Result of a `write` call: a stripped response, `None`, or the
`IOError` raised when the retry depth is exhausted. -/
inductive WriteOutcome where
  | ok (response : String)
  | noResponse
  | ioError
deriving DecidableEq, Repr

/-- Model of `TekAwg.__write_helper(message, expect_response,
expected_length, depth, cur_depth)`.  `fuel` is `depth - cur_depth`, the
number of attempts still allowed (all call sites satisfy
`cur_depth ≤ depth`; the helper raises `IOError` as soon as
`depth == cur_depth`).  Each attempt sends `message + "\n"` in full, then
(when a response is expected) runs the receive loop; a timeout recurses
with the attempt counter advanced.  Returns the list of transmitted
strings together with the outcome. -/
def writeHelper (message : String) (expect_response : Bool) (expected_length : ℕ)
    (fuel : ℕ) (reads : List (Option String)) : List String × WriteOutcome :=
  if _h : fuel = 0 then ([], .ioError)
  else
    if expect_response then
      match recvLoop reads "" expected_length with
      | (some response, _) => ([message ++ "\n"], .ok (pyStrip response))
      | (none, rest) =>
        let next := writeHelper message expect_response expected_length (fuel - 1) rest
        ((message ++ "\n") :: next.1, next.2)
    else ([message ++ "\n"], .noResponse)
termination_by fuel
decreasing_by omega

/-- Model of `TekAwg.write(message, expect_response, expected_length)`:
calls the helper with the default retry depth 3 and attempt counter 0. -/
def write (message : String) (expect_response : Bool) (expected_length : ℕ)
    (reads : List (Option String)) : List String × WriteOutcome :=
  writeHelper message expect_response expected_length 3 reads

/-! ### Chunked upload protocol -/

/-- One block transmitted by `TekAwg.__new_waveform_int`: its sample
offset, its sample count, and whether it is acknowledgment-checked (sent
with `expect_response=True` and compared against `"0"`). -/
structure UploadBlock where
  sampleOffset : ℕ
  sampleCount : ℕ
  acked : Bool
deriving DecidableEq, Repr

/-- The block schedule of `TekAwg.__new_waveform_int(filename, packed_data,
packet_size)` as a function of `data_length = len(packed_data)` (in bytes;
each sample is 2 bytes).  Full blocks of `packet_size` samples are sent at
sample offsets `i * packet_size` for
`i in range(0, data_length / (packet_size * 2))`, each
acknowledgment-checked; any remaining bytes form one final block at sample
offset `(data_length - remaining) / 2` with `remaining / 2` samples, sent
without expecting a response.  The raw payload of a block at sample offset
`o` with `c` samples is `packed_data[2 * o : 2 * (o + c)]`. -/
def newWaveformBlocks (data_length packet_size : ℕ) : List UploadBlock :=
  (if packet_size * 2 ≤ data_length then
    (List.range (data_length / (packet_size * 2))).map
      (fun i => ⟨i * packet_size, packet_size, true⟩)
  else []) ++
  (if 0 < data_length - data_length / (packet_size * 2) * (packet_size * 2) then
    [⟨(data_length - (data_length - data_length / (packet_size * 2) * (packet_size * 2))) / 2,
      (data_length - data_length / (packet_size * 2) * (packet_size * 2)) / 2, false⟩]
  else [])

/-- The per-block retry loop of `TekAwg.__new_waveform_int`:
`while not success: success = self.write(...) == "0"`.
`responses` is the sequence of error-status strings the device returns for
successive attempts; each consumed response corresponds to one
transmission of the identical block payload `packet`.  Returns the list of
transmissions made and whether the block was acknowledged before the
response sequence was exhausted. -/
def blockUploadLoop (packet : String) : List String → List String × Bool
  | [] => ([], false)
  | r :: rest =>
    if r = "0" then ([packet], true)
    else
      let next := blockUploadLoop packet rest
      (packet :: next.1, next.2)

/-! ### Helper lemmas about the merge error checks -/

/-- The bit-depth check of `merge_arb_and_markers` fires first for any
depth outside the supported pair. -/
lemma merge_unsupported_depth (arb : Option (List ℚ)) (mk1 mk2 : Option (List ℤ))
    (bit_depth : ℕ) (h8 : bit_depth ≠ 8) (h14 : bit_depth ≠ 14) :
    merge_arb_and_markers arb mk1 mk2 bit_depth = .error .unsupportedBitDepth := by
  unfold merge_arb_and_markers
  rw [if_pos ⟨h8, h14⟩]

/-- With a supported bit depth and all three inputs omitted,
`merge_arb_and_markers` raises the no-input `ValueError`. -/
lemma merge_no_input (bit_depth : ℕ) (h : bit_depth = 8 ∨ bit_depth = 14) :
    merge_arb_and_markers none none none bit_depth = .error .noInputSupplied := by
  unfold merge_arb_and_markers
  rw [if_neg (by rcases h with rfl | rfl <;> simp), if_pos ⟨rfl, rfl, rfl⟩]

/-- With a supported bit depth, supplied amplitude and marker-1 sequences
of different lengths make `merge_arb_and_markers` raise
`UnequalPatternLengths`, whatever the third argument is. -/
lemma merge_unequal_arb_mk1 (bit_depth : ℕ) (h : bit_depth = 8 ∨ bit_depth = 14)
    (a : List ℚ) (b : List ℤ) (mk2 : Option (List ℤ)) (hab : a.length ≠ b.length) :
    merge_arb_and_markers (some a) (some b) mk2 bit_depth = .error .unequalPatternLengths := by
  unfold merge_arb_and_markers
  rw [if_neg (by rcases h with rfl | rfl <;> simp), if_neg (by simp)]
  simp only [Option.getD_some]
  rw [if_pos (Or.inl (by simpa using hab))]

/-- With a supported bit depth, supplied amplitude and marker-2 sequences
of different lengths make `merge_arb_and_markers` raise
`UnequalPatternLengths`, whatever the marker-1 argument is. -/
lemma merge_unequal_arb_mk2 (bit_depth : ℕ) (h : bit_depth = 8 ∨ bit_depth = 14)
    (a : List ℚ) (c : List ℤ) (mk1 : Option (List ℤ)) (hac : a.length ≠ c.length) :
    merge_arb_and_markers (some a) mk1 (some c) bit_depth = .error .unequalPatternLengths := by
  unfold merge_arb_and_markers
  rw [if_neg (by rcases h with rfl | rfl <;> simp), if_neg (by simp)]
  rcases mk1 with _ | b
  · simp only [Option.getD_some]
    rw [if_pos (Or.inr (by simpa using hac))]
  · simp only [Option.getD_some]
    by_cases hb : a.length = b.length
    · rw [if_pos (Or.inr (by simpa [← hb] using hac))]
    · rw [if_pos (Or.inl (by simpa using hb))]

/-- With a supported bit depth, supplied marker-1 and marker-2 sequences
of different lengths make `merge_arb_and_markers` raise
`UnequalPatternLengths`, whatever the amplitude argument is. -/
lemma merge_unequal_mk1_mk2 (bit_depth : ℕ) (h : bit_depth = 8 ∨ bit_depth = 14)
    (b c : List ℤ) (arb : Option (List ℚ)) (hbc : b.length ≠ c.length) :
    merge_arb_and_markers arb (some b) (some c) bit_depth = .error .unequalPatternLengths := by
  unfold merge_arb_and_markers
  rw [if_neg (by rcases h with rfl | rfl <;> simp), if_neg (by simp)]
  rcases arb with _ | a
  · simp only [Option.getD_none]
    rw [if_pos (Or.inr (by simpa using hbc))]
  · simp only [Option.getD_some]
    by_cases hb : a.length = b.length
    · rw [if_pos (Or.inr (by simpa using hbc))]
    · rw [if_pos (Or.inl (by simpa using hb))]

/-! ### Claim C4 -/

/-- Claim C4: uploading a packed waveform of 50000 samples (100000 bytes)
with packet size 20000 samples sends exactly two full-size
acknowledgment-checked blocks at sample offsets 0 and 20000 with count
20000 each, followed by one remainder block at sample offset 40000 with
count 10000 that is sent without expecting or checking an
acknowledgment. -/
theorem claim_C4_theorem :
    newWaveformBlocks 100000 20000 =
      [⟨0, 20000, true⟩, ⟨20000, 20000, true⟩, ⟨40000, 10000, false⟩] := by
  decide

/-! ### Claim C7 -/

/-- Claim C7: a full-size block is acknowledged, and the upload advances,
exactly when the returned error-status string is `"0"`; any other response
causes the identical block to be retransmitted, with no bound on the
number of resends: the loop transmits the identical packet once per
response up to and including the first `"0"`, and if no response is ever
`"0"` it consumes every response, resending each time, without ever
acknowledging. -/
theorem claim_C7_theorem (packet : String) (responses : List String) :
    blockUploadLoop packet responses =
      (List.replicate
        (if responses.contains "0" then responses.findIdx (· == "0") + 1
         else responses.length) packet,
       responses.contains "0") := by
  induction responses with
  | nil => rfl
  | cons r rest ih =>
    by_cases h : r = "0"
    · subst h
      simp [blockUploadLoop, List.findIdx_cons, List.contains_cons]
    · have hbeq : (r == "0") = false := by simpa using h
      have hbeq' : (("0" : String) == r) = false := by
        simp only [beq_eq_false_iff_ne, ne_eq]
        exact fun e => h e.symm
      simp only [blockUploadLoop, if_neg h, ih, List.contains_cons, hbeq', Bool.false_or,
        List.findIdx_cons, hbeq, cond_false]
      by_cases hc : "0" ∈ rest <;> simp [hc, List.replicate_succ]

/-! ### Claim C9 -/

/-- Claim C9: `merge_arb_and_markers` fails with the no-input `ValueError`
when all three sequences are omitted (at either supported bit depth, in
particular at the default 14); fails with the unsupported-bit-depth
`ValueError` for every bit depth outside the supported pair 8 and 14; and
fails with `UnequalPatternLengths` whenever two supplied inputs have
different lengths (whatever the remaining argument is). -/
theorem claim_C9_theorem :
    (∀ bit_depth, bit_depth = 8 ∨ bit_depth = 14 →
      merge_arb_and_markers none none none bit_depth = .error .noInputSupplied)
    ∧ (∀ bit_depth (arb : Option (List ℚ)) (mk1 mk2 : Option (List ℤ)),
        bit_depth ≠ 8 → bit_depth ≠ 14 →
        merge_arb_and_markers arb mk1 mk2 bit_depth = .error .unsupportedBitDepth)
    ∧ (∀ bit_depth (a : List ℚ) (b : List ℤ) (mk2 : Option (List ℤ)),
        bit_depth = 8 ∨ bit_depth = 14 → a.length ≠ b.length →
        merge_arb_and_markers (some a) (some b) mk2 bit_depth
          = .error .unequalPatternLengths)
    ∧ (∀ bit_depth (a : List ℚ) (c : List ℤ) (mk1 : Option (List ℤ)),
        bit_depth = 8 ∨ bit_depth = 14 → a.length ≠ c.length →
        merge_arb_and_markers (some a) mk1 (some c) bit_depth
          = .error .unequalPatternLengths)
    ∧ (∀ bit_depth (b c : List ℤ) (arb : Option (List ℚ)),
        bit_depth = 8 ∨ bit_depth = 14 → b.length ≠ c.length →
        merge_arb_and_markers arb (some b) (some c) bit_depth
          = .error .unequalPatternLengths) :=
  ⟨fun d h => merge_no_input d h,
   fun d arb mk1 mk2 h8 h14 => merge_unsupported_depth arb mk1 mk2 d h8 h14,
   fun d a b mk2 h hab => merge_unequal_arb_mk1 d h a b mk2 hab,
   fun d a c mk1 h hac => merge_unequal_arb_mk2 d h a c mk1 hac,
   fun d b c arb h hbc => merge_unequal_mk1_mk2 d h b c arb hbc⟩

/-- Witness for claim C9 at concrete inputs: no arguments at the default
bit depth 14; a one-element amplitude at bit depth 12; and a two-element
amplitude with a one-element marker 1 at bit depth 14. -/
theorem claim_C9_witness :
    merge_arb_and_markers none none none 14 = .error .noInputSupplied
    ∧ merge_arb_and_markers (some [0]) none none 12 = .error .unsupportedBitDepth
    ∧ merge_arb_and_markers (some [0, 0]) (some [1]) none 14
        = .error .unequalPatternLengths
    ∧ merge_arb_and_markers (some [0, 0]) none (some [1]) 14
        = .error .unequalPatternLengths
    ∧ merge_arb_and_markers none (some [1]) (some [1, 0]) 14
        = .error .unequalPatternLengths :=
  ⟨claim_C9_theorem.1 14 (Or.inr rfl),
   claim_C9_theorem.2.1 12 (some [0]) none none (by decide) (by decide),
   claim_C9_theorem.2.2.1 14 [0, 0] [1] none (Or.inr rfl) (by decide),
   claim_C9_theorem.2.2.2.1 14 [0, 0] [1] none (Or.inr rfl) (by decide),
   claim_C9_theorem.2.2.2.2 14 [1] [1, 0] none (Or.inr rfl) (by decide)⟩

/-! ### Claim C10 -/

/-- Claim C10: in `merge_arb_and_markers` the bit-depth check precedes the
no-input check: when all three sequences are omitted and the bit depth is
outside the supported pair, the unsupported-bit-depth error is raised, not
the no-input error. -/
theorem claim_C10_theorem (bit_depth : ℕ) (h8 : bit_depth ≠ 8) (h14 : bit_depth ≠ 14) :
    merge_arb_and_markers none none none bit_depth = .error .unsupportedBitDepth :=
  merge_unsupported_depth none none none bit_depth h8 h14

/-- Witness for claim C10 at the concrete bit depths 12 and 16. -/
theorem claim_C10_witness :
    merge_arb_and_markers none none none 12 = .error .unsupportedBitDepth
    ∧ merge_arb_and_markers none none none 16 = .error .unsupportedBitDepth :=
  ⟨claim_C10_theorem 12 (by decide) (by decide),
   claim_C10_theorem 16 (by decide) (by decide)⟩

/-! ### Claim C2 -/

/-- Evaluation lemma: `pyInt` on a nonnegative argument is the floor. -/
lemma pyInt_of_nonneg {q : ℚ} (h : 0 ≤ q) : pyInt q = ⌊q⌋ := if_pos h

/-- Evaluation lemma: `pyInt` on a negative argument is the ceiling. -/
lemma pyInt_of_neg {q : ℚ} (h : q < 0) : pyInt q = ⌈q⌉ := if_neg (not_le.mpr h)

/-- Counterexample to claim C2 as stated: at value `1/100` and bit depth 8
the code computes `int(0.01 * 254 + 127) = int(129.54) = 129` (truncation),
while `round(0.01 * 254 + 127) = 130`. -/
theorem claim_C2_counterexample :
    bifloat_to_uint (1 / 100) 8 = .ok 129
    ∧ round ((1 / 100 : ℚ) * 254 + 127) = 130 := by
  constructor
  · show bifloat_to_uint (1 / 100) 8 = .ok 129
    unfold bifloat_to_uint bit_depth_mult_offset
    norm_num
    rw [pyInt_of_nonneg (by norm_num)]
    norm_num [Int.floor_eq_iff]
  · rw [round_eq]
    norm_num [Int.floor_eq_iff]

/-- Claim C2, amended: for each supported bit depth in 8, 12, 14, 16,
`bifloat_to_uint` computes the truncation toward zero (Python `int()`,
not `round`) of `value * multiplier + offset` with the table's profile;
for every other depth both conversions fail with the
unsupported-bit-depth error; and `uint_to_bifloat` computes the exact
affine inverse `(code - offset) / multiplier`. -/
theorem claim_C2_theorem :
    (∀ value : ℚ,
      bifloat_to_uint value 8 = .ok (pyInt (value * 254 + 127))
      ∧ bifloat_to_uint value 12 = .ok (pyInt (value * 4094 + 2047))
      ∧ bifloat_to_uint value 14 = .ok (pyInt (value * 16382 + 8191))
      ∧ bifloat_to_uint value 16 = .ok (pyInt (value * 65534 + 32767)))
    ∧ (∀ bit_depth, bit_depth ≠ 8 → bit_depth ≠ 12 → bit_depth ≠ 14 → bit_depth ≠ 16 →
        (∀ value : ℚ, bifloat_to_uint value bit_depth = .error .unsupportedBitDepth)
        ∧ ∀ code : ℤ, uint_to_bifloat code bit_depth = .error .unsupportedBitDepth)
    ∧ (∀ code : ℤ,
      uint_to_bifloat code 8 = .ok ((code - 127) / 254)
      ∧ uint_to_bifloat code 12 = .ok ((code - 2047) / 4094)
      ∧ uint_to_bifloat code 14 = .ok ((code - 8191) / 16382)
      ∧ uint_to_bifloat code 16 = .ok ((code - 32767) / 65534)) := by
  refine ⟨fun value => ?_, fun bit_depth h8 h12 h14 h16 => ?_, fun code => ?_⟩
  · refine ⟨?_, ?_, ?_, ?_⟩ <;> · unfold bifloat_to_uint bit_depth_mult_offset; norm_num
  · have htab : bit_depth_mult_offset bit_depth = none := by
      unfold bit_depth_mult_offset
      rw [if_neg h8, if_neg h12, if_neg h14, if_neg h16]
    exact ⟨fun value => by unfold bifloat_to_uint; rw [htab],
           fun code => by unfold uint_to_bifloat; rw [htab]⟩
  · refine ⟨?_, ?_, ?_, ?_⟩ <;> · unfold uint_to_bifloat bit_depth_mult_offset; norm_num

/-- Witness for claim C2 at concrete inputs: value `1/2` at depth 8
(`int(0.5 * 254 + 127) = 254`), the unsupported depth 10, and code 24573
at depth 14 (`(24573 - 8191) / 16382 = 1`). -/
theorem claim_C2_witness :
    bifloat_to_uint (1 / 2) 8 = .ok 254
    ∧ bifloat_to_uint (1 / 2) 10 = .error .unsupportedBitDepth
    ∧ uint_to_bifloat 24573 14 = .ok 1 := by
  refine ⟨?_, ?_, ?_⟩
  · have h := (claim_C2_theorem.1 (1 / 2)).1
    rw [h, pyInt_of_nonneg (by norm_num)]
    norm_num
  · exact (claim_C2_theorem.2.1 10 (by decide) (by decide) (by decide) (by decide)).1 (1 / 2)
  · have h := (claim_C2_theorem.2.2 24573).2.2.1
    rw [h]
    norm_num

/-! ### Claim C5 -/

/-- The empty accumulated response is always incomplete (its length is
below one). -/
lemma respIncomplete_empty (expected_length : ℕ) :
    respIncomplete "" expected_length = true := by
  simp [respIncomplete]

/-- On a connection that never delivers anything, the receive loop times
out immediately. -/
lemma recvLoop_empty (expected_length : ℕ) :
    recvLoop [] "" expected_length = (none, []) := by
  unfold recvLoop
  rw [respIncomplete_empty]
  simp

/-- On a connection whose reads always time out, every attempt of the
write helper transmits the full command once and times out, so `fuel`
attempts transmit it `fuel` times and end in the `IOError`. -/
lemma writeHelper_timeout (message : String) (expected_length fuel : ℕ) :
    writeHelper message true expected_length fuel [] =
      (List.replicate fuel (message ++ "\n"), .ioError) := by
  induction fuel with
  | zero => simp [writeHelper]
  | succ n ih =>
    rw [writeHelper]
    simp [recvLoop_empty, ih, List.replicate_succ]

/-- Claim C5: a command sent expecting a response over a connection whose
reads always time out is retransmitted in full exactly 3 times (the retry
depth), and the call then ends in the `IOError` instead of returning a
response. -/
theorem claim_C5_theorem (message : String) (expected_length : ℕ) :
    write message true expected_length [] =
      ([message ++ "\n", message ++ "\n", message ++ "\n"], .ioError) := by
  show writeHelper message true expected_length 3 [] = _
  rw [writeHelper_timeout]
  rfl

/-! ### Claim C6 -/

/-- The receive loop of the write helper concatenates delivered chunks
while every proper prefix of the delivery is incomplete, and stops with
the full concatenation once it is complete. -/
lemma recvLoop_assembles (expected_length : ℕ) :
    ∀ (chunks : List String) (acc : String),
      (∀ i, i < chunks.length →
        respIncomplete (List.foldl (· ++ ·) acc (chunks.take i)) expected_length = true) →
      respIncomplete (List.foldl (· ++ ·) acc chunks) expected_length = false →
      recvLoop (chunks.map some) acc expected_length =
        (some (List.foldl (· ++ ·) acc chunks), []) := by
  intro chunks
  induction chunks with
  | nil =>
    intro acc _ hdone
    unfold recvLoop
    simp only [List.foldl_nil] at hdone
    rw [hdone]
    simp
  | cons c rest ih =>
    intro acc hpre hdone
    have h0 : respIncomplete acc expected_length = true := by
      simpa using hpre 0 (by simp)
    unfold recvLoop
    rw [List.map_cons, h0]
    simp only []
    have := ih (acc ++ c)
      (fun i hi => by
        simpa [List.take_succ_cons, List.foldl_cons] using
          hpre (i + 1) (by simpa using Nat.succ_lt_succ hi))
      (by simpa [List.foldl_cons] using hdone)
    simpa [List.foldl_cons] using this

/-- Claim C6: when a response is expected, the engine keeps reading and
concatenating chunks while the accumulation is incomplete (fewer than one
byte, or last byte not a newline, or fewer than the expected number of
semicolon-separated fields), and once complete it returns the full
concatenation with surrounding whitespace (the trailing terminator)
stripped, after a single transmission of the command. -/
theorem claim_C6_theorem (message : String) (expected_length : ℕ) (chunks : List String)
    (hpre : ∀ i, i < chunks.length →
      respIncomplete (List.foldl (· ++ ·) "" (chunks.take i)) expected_length = true)
    (hdone : respIncomplete (List.foldl (· ++ ·) "" chunks) expected_length = false) :
    write message true expected_length (chunks.map some) =
      ([message ++ "\n"], .ok (pyStrip (List.foldl (· ++ ·) "" chunks))) := by
  show writeHelper message true expected_length 3 (chunks.map some) = _
  rw [writeHelper]
  rw [recvLoop_assembles expected_length chunks "" hpre hdone]
  simp

/-- Witness for claim C6: the two-field response `"ab;cde\n"` delivered
across the three reads `"ab;"`, `"cd"`, `"e\n"` is reassembled and
stripped. -/
theorem claim_C6_witness :
    write "CMD?" true 2 (["ab;", "cd", "e\n"].map some) = (["CMD?\n"], .ok "ab;cde") := by
  have h6 := claim_C6_theorem ("CMD?") 2 ["ab;", "cd", "e\n"] (by decide) (by decide)
  rw [h6]
  decide

/-! ### Bit-level facts about packed sample words -/

/-- Bit 0 of the uint16 image of a boolean marker. -/
lemma boolBit_testBit_zero (b : Bool) : (if b then 1 else 0 : ℕ).testBit 0 = b := by
  cases b <;> decide

/-- Bits above 0 of the uint16 image of a boolean marker are clear. -/
lemma boolBit_testBit_succ (b : Bool) (i : ℕ) :
    (if b then 1 else 0 : ℕ).testBit (i + 1) = false := by
  cases b <;> simp [Nat.testBit_succ]

/-- For an in-range code, `astype("<u2")` is the identity (as `toNat`). -/
lemma toU16_of_lt {code : ℤ} (h0 : 0 ≤ code) (h1 : code < 16384) :
    toU16 code = code.toNat := by
  unfold toU16
  rw [Int.emod_eq_of_lt h0 (by omega)]

/-- Masking a packed word with `2**14 - 1` recovers an in-range amplitude
code. -/
lemma packWord_and_mask {code : ℤ} (h0 : 0 ≤ code) (h1 : code < 16384) (b1 b2 : Bool) :
    packWord code b1 b2 &&& (2 ^ 14 - 1) = code.toNat := by
  have hlt : code.toNat < 2 ^ 14 := by omega
  unfold packWord
  rw [toU16_of_lt h0 h1]
  apply Nat.eq_of_testBit_eq
  intro i
  simp only [Nat.testBit_land, Nat.testBit_lor, Nat.testBit_shiftLeft,
    Nat.testBit_two_pow_sub_one]
  by_cases hi : i < 14
  · have h14 : ¬(14 ≤ i) := by omega
    have h15 : ¬(15 ≤ i) := by omega
    simp [hi, h14, h15]
  · have : code.toNat.testBit i = false :=
      Nat.testBit_lt_two_pow (lt_of_lt_of_le hlt (Nat.pow_le_pow_right (by norm_num) (by omega)))
    simp [hi, this]

/-- Bit 14 of a packed word with an in-range amplitude code is marker 1. -/
lemma packWord_and_mk1 {code : ℤ} (h0 : 0 ≤ code) (h1 : code < 16384) (b1 b2 : Bool) :
    ((packWord code b1 b2 &&& 2 ^ 14) != 0) = b1 := by
  have hlt : code.toNat < 2 ^ 14 := by omega
  unfold packWord
  rw [toU16_of_lt h0 h1, Nat.and_two_pow]
  have ht : (code.toNat ||| ((if b1 then 1 else 0) <<< 14) |||
      ((if b2 then 1 else 0) <<< 15)).testBit 14 = b1 := by
    simp only [Nat.testBit_lor, Nat.testBit_shiftLeft]
    rw [Nat.testBit_lt_two_pow hlt]
    cases b1 <;> cases b2 <;> decide
  rw [ht]
  cases b1 <;> decide

/-- Bit 15 of a packed word with an in-range amplitude code is marker 2. -/
lemma packWord_and_mk2 {code : ℤ} (h0 : 0 ≤ code) (h1 : code < 16384) (b1 b2 : Bool) :
    ((packWord code b1 b2 &&& 2 ^ 15) != 0) = b2 := by
  have hlt : code.toNat < 2 ^ 15 := by omega
  unfold packWord
  rw [toU16_of_lt h0 h1, Nat.and_two_pow]
  have ht : (code.toNat ||| ((if b1 then 1 else 0) <<< 14) |||
      ((if b2 then 1 else 0) <<< 15)).testBit 15 = b2 := by
    simp only [Nat.testBit_lor, Nat.testBit_shiftLeft]
    rw [Nat.testBit_lt_two_pow hlt]
    cases b1 <;> cases b2 <;> decide
  rw [ht]
  cases b2 <;> decide

/-- Evaluation of `merge_arb_and_markers` at bit depth 14 on three
supplied, equal-length sequences: the packed words are built from the
ndarray-path amplitude codes and the boolean-coerced markers. -/
lemma merge_some_eval (a : List ℚ) (m1 m2 : List ℤ)
    (hlen1 : a.length = m1.length) (hlen2 : m1.length = m2.length) :
    merge_arb_and_markers (some a) (some m1) (some m2) 14 =
      .ok (List.zipWith (fun c (mk : Bool × Bool) => packWord c mk.1 mk.2)
        (a.map fun v => pyInt (v * 16382) + 8191)
        ((m1.map (· != 0)).zip (m2.map (· != 0)))) := by
  unfold merge_arb_and_markers
  rw [if_neg (by simp), if_neg (by simp)]
  simp only [Option.getD_some]
  rw [if_neg (by simp [hlen1, hlen2])]
  simp only [bit_depth_mult_offset]
  norm_num
  rw [List.zipWith_map_left]

/-- Splitting a list of packed words built from in-range amplitude codes
and marker booleans recovers exactly the codes and the markers. -/
lemma unmerge_pack :
    ∀ (cs : List ℤ) (bs : List (Bool × Bool)), cs.length = bs.length →
      (∀ c ∈ cs, 0 ≤ c ∧ c < 16384) →
      unmerge_arb_and_markers
          (List.zipWith (fun c (mk : Bool × Bool) => packWord c mk.1 mk.2) cs bs)
        = (cs.map Int.toNat, bs.map Prod.fst, bs.map Prod.snd) := by
  intro cs
  induction cs with
  | nil =>
    intro bs hlen _
    have : bs = [] := List.eq_nil_of_length_eq_zero hlen.symm
    subst this
    rfl
  | cons c cs ih =>
    intro bs hlen hr
    cases bs with
    | nil => simp at hlen
    | cons b bs =>
      obtain ⟨h0, h1⟩ := hr c (List.mem_cons_self c cs)
      have ihh := ih bs (by simpa using hlen) (fun x hx => hr x (List.mem_cons_of_mem c hx))
      simp only [List.zipWith_cons_cons, unmerge_arb_and_markers, List.map_cons] at ihh ⊢
      have e1 := congrArg (fun t => t.1) ihh
      have e2 := congrArg (fun t => t.2.1) ihh
      have e3 := congrArg (fun t => t.2.2) ihh
      simp only at e1 e2 e3
      simp only [Prod.mk.injEq, List.cons.injEq]
      exact ⟨⟨packWord_and_mask h0 h1 b.1 b.2, e1⟩,
             ⟨packWord_and_mk1 h0 h1 b.1 b.2, e2⟩,
             ⟨packWord_and_mk2 h0 h1 b.1 b.2, e3⟩⟩

/-! ### Claim C1 -/

/-- Claim C1, amended: for equal-length supplied sequences whose
amplitude codes — as computed by the merge's ndarray path,
`int(v * 16382) + 8191` — all lie in `[0, 2^14)`, splitting the merged
words recovers exactly those codes together with the markers coerced to
booleans.  (As stated over all amplitudes in `[-1, 1]` the claim fails;
see the counterexample below.) -/
theorem claim_C1_theorem (a : List ℚ) (m1 m2 : List ℤ) (codes : List ℕ)
    (hlen1 : a.length = m1.length) (hlen2 : m1.length = m2.length)
    (hrange : ∀ v ∈ a, 0 ≤ pyInt (v * 16382) + 8191 ∧ pyInt (v * 16382) + 8191 < 16384)
    (hmerge : merge_arb_and_markers (some a) (some m1) (some m2) 14 = .ok codes) :
    unmerge_arb_and_markers codes =
      (a.map fun v => (pyInt (v * 16382) + 8191).toNat,
       m1.map (· != 0), m2.map (· != 0)) := by
  rw [merge_some_eval a m1 m2 hlen1 hlen2] at hmerge
  have hc := (Except.ok.inj hmerge).symm
  rw [hc]
  have hlen : (a.map fun v => pyInt (v * 16382) + 8191).length =
      ((m1.map (· != 0)).zip (m2.map (· != 0))).length := by
    simp [hlen1, hlen2]
  rw [unmerge_pack _ _ hlen (by
    intro c hcm
    obtain ⟨v, hv, rfl⟩ := List.mem_map.mp hcm
    exact hrange v hv)]
  refine Prod.ext ?_ (Prod.ext ?_ ?_)
  · simp [List.map_map, Function.comp]
  · simp only []
    exact List.map_fst_zip _ _ (by simp [hlen2])
  · simp only []
    exact List.map_snd_zip _ _ (by simp [hlen2])

/-- Witness for amended claim C1 at a concrete input: amplitudes
`[0.5, -0.25]` (codes 16382 and 4096, both in range), marker 1 `[1, 0]`,
marker 2 `[0, 3]`; merging gives `[32766, 36864]` and splitting recovers
the codes and markers. -/
theorem claim_C1_witness :
    merge_arb_and_markers (some [1 / 2, -(1 / 4)]) (some [1, 0]) (some [0, 3]) 14
        = .ok [32766, 36864]
    ∧ unmerge_arb_and_markers [32766, 36864]
        = ([16382, 4096], [true, false], [false, true]) := by
  have ha : pyInt ((1 / 2 : ℚ) * 16382) = 8191 := by
    rw [pyInt_of_nonneg (by norm_num)]
    norm_num
  have hb : pyInt ((-(1 / 4) : ℚ) * 16382) = -4095 := by
    rw [pyInt_of_neg (by norm_num)]
    norm_num [Int.ceil_eq_iff]
  have hmerge : merge_arb_and_markers (some [1 / 2, -(1 / 4)]) (some [1, 0]) (some [0, 3]) 14
      = .ok [32766, 36864] := by
    rw [merge_some_eval [1 / 2, -(1 / 4)] [1, 0] [0, 3] rfl rfl]
    simp only [List.map_cons, List.map_nil, ha, hb, List.zip_cons_cons, List.zip_nil_right,
      List.zipWith_cons_cons, List.zipWith_nil_right]
    norm_num [packWord, toU16]
    decide
  refine ⟨hmerge, ?_⟩
  have h := claim_C1_theorem [1 / 2, -(1 / 4)] [1, 0] [0, 3] [32766, 36864] rfl rfl
    (by
      intro v hv
      simp only [List.mem_cons, List.not_mem_nil, or_false] at hv
      rcases hv with rfl | rfl
      · rw [ha]; norm_num
      · rw [hb]; norm_num) hmerge
  rw [h]
  simp only [List.map_cons, List.map_nil, ha, hb]
  norm_num
  decide

/-- Counterexample to claim C1 as stated: at amplitude `[1.0]` (markers
off) the amplitude code is `int(1.0 * 16382) + 8191 = 24573`, which
overflows 14 bits; merging yields `[24573]`, and splitting returns
amplitude code 8189 with marker 1 spuriously set — not the claimed triple
`(bifloat_to_uint([1.0], 14), [false], [false]) = ([24573], [false],
[false])`. -/
theorem claim_C1_counterexample :
    merge_arb_and_markers (some [1]) (some [0]) (some [0]) 14 = .ok [24573]
    ∧ bifloat_to_uint_list [1] 14 = .ok [24573]
    ∧ unmerge_arb_and_markers [24573] = ([8189], [true], [false])
    ∧ (([8189], [true], [false]) : List ℕ × List Bool × List Bool)
        ≠ ([24573], [false], [false]) := by
  have ha : pyInt ((1 : ℚ) * 16382) = 16382 := by
    rw [pyInt_of_nonneg (by norm_num)]
    norm_num
  refine ⟨?_, ?_, by decide, by decide⟩
  · rw [merge_some_eval [1] [0] [0] rfl rfl]
    simp only [List.map_cons, List.map_nil, ha, List.zip_cons_cons, List.zip_nil_right,
      List.zipWith_cons_cons, List.zipWith_nil_right]
    norm_num [packWord, toU16]
    decide
  · unfold bifloat_to_uint_list bit_depth_mult_offset
    norm_num
    rw [pyInt_of_nonneg (by norm_num)]
    norm_num

/-! ### Claim C3 -/

/-- Counterexample to claim C3 as stated: encoding amplitude 1.0 with
marker 1 set at bit depth 14 yields the packed code 24573 (bit 14 is
already set by the overflowing amplitude code), not `8191 + 16384 =
24575`; and decoding 24575 yields amplitude code 8191, i.e. amplitude
`(8191 - 8191) / 16382 = 0.0`, not 1.0. -/
theorem claim_C3_counterexample :
    merge_arb_and_markers (some [1]) (some [1]) (some [0]) 14 = .ok [24573]
    ∧ (24573 : ℕ) ≠ 24575
    ∧ unmerge_arb_and_markers [24575] = ([8191], [true], [false])
    ∧ uint_to_bifloat 8191 14 = .ok 0
    ∧ (0 : ℚ) ≠ 1 := by
  have ha : pyInt ((1 : ℚ) * 16382) = 16382 := by
    rw [pyInt_of_nonneg (by norm_num)]
    norm_num
  refine ⟨?_, by decide, by decide, ?_, by norm_num⟩
  · rw [merge_some_eval [1] [1] [0] rfl rfl]
    simp only [List.map_cons, List.map_nil, ha, List.zip_cons_cons, List.zip_nil_right,
      List.zipWith_cons_cons, List.zipWith_nil_right]
    norm_num [packWord, toU16]
    decide
  · unfold uint_to_bifloat bit_depth_mult_offset
    norm_num

/-- Claim C3, amended: encoding amplitude 1.0 with marker 1 set (marker 2
unset) at bit depth 14 yields the packed code 24573 (the amplitude code
`int(1.0 * 16382) + 8191 = 24573` already has bit 14 set, so OR-ing the
marker changes nothing); decoding the packed code 24575 yields amplitude
0.0, marker 1 true, marker 2 false. -/
theorem claim_C3_theorem :
    merge_arb_and_markers (some [1]) (some [1]) (some [0]) 14 = .ok [24573]
    ∧ unmerge_arb_and_markers [24575] = ([8191], [true], [false])
    ∧ uint_to_bifloat_list [8191] 14 = .ok [0] := by
  have ha : pyInt ((1 : ℚ) * 16382) = 16382 := by
    rw [pyInt_of_nonneg (by norm_num)]
    norm_num
  refine ⟨?_, by decide, ?_⟩
  · rw [merge_some_eval [1] [1] [0] rfl rfl]
    simp only [List.map_cons, List.map_nil, ha, List.zip_cons_cons, List.zip_nil_right,
      List.zipWith_cons_cons, List.zipWith_nil_right]
    norm_num [packWord, toU16]
    decide
  · unfold uint_to_bifloat_list bit_depth_mult_offset
    norm_num

/-! ### Decimal digit strings (for claim C8) -/

/-- The decimal digit characters of `n`, most significant first: the
recursion that `Nat.toDigitsCore` implements with explicit fuel and an
accumulator. -/
def decDigits (n : ℕ) : List Char :=
  if n < 10 then [Nat.digitChar n]
  else decDigits (n / 10) ++ [Nat.digitChar (n % 10)]
termination_by n
decreasing_by exact Nat.div_lt_self (by omega) (by norm_num)

/-- Unfolding of `decDigits` on a single digit. -/
lemma decDigits_lt {n : ℕ} (h : n < 10) : decDigits n = [Nat.digitChar n] := by
  rw [decDigits.eq_def, if_pos h]

/-- Unfolding of `decDigits` on a multi-digit number. -/
lemma decDigits_ge {n : ℕ} (h : 10 ≤ n) :
    decDigits n = decDigits (n / 10) ++ [Nat.digitChar (n % 10)] := by
  rw [decDigits.eq_def]
  rw [if_neg (by omega)]

/-- `Nat.toDigitsCore` with sufficient fuel computes `decDigits` onto its
accumulator. -/
lemma toDigitsCore_eq_decDigits :
    ∀ (fuel n : ℕ) (ds : List Char), n < fuel →
      Nat.toDigitsCore 10 fuel n ds = decDigits n ++ ds := by
  intro fuel
  induction fuel with
  | zero => intro n ds h; omega
  | succ f ih =>
    intro n ds h
    simp only [Nat.toDigitsCore]
    by_cases h10 : n / 10 = 0
    · have hn : n < 10 := by omega
      rw [if_pos h10, decDigits_lt hn, Nat.mod_eq_of_lt hn]
      rfl
    · have hge : 10 ≤ n := by omega
      rw [if_neg h10, ih (n / 10) _ (by omega), decDigits_ge hge]
      simp [List.append_assoc]

/-- The character data of `Nat.repr n` is `decDigits n`. -/
lemma repr_data (n : ℕ) : (Nat.repr n).data = decDigits n := by
  show (Nat.toDigits 10 n).asString.data = _
  unfold Nat.toDigits
  rw [toDigitsCore_eq_decDigits (n + 1) n [] (Nat.lt_succ_self n)]
  simp [List.asString]

/-- The length of `Nat.repr n` is the number of decimal digits of `n`. -/
lemma repr_data_length (n : ℕ) : (Nat.repr n).length = (decDigits n).length := by
  show (Nat.repr n).data.length = _
  rw [repr_data]

/-- At least one digit is always produced. -/
lemma decDigits_length_pos (n : ℕ) : 1 ≤ (decDigits n).length := by
  by_cases h : n < 10
  · rw [decDigits_lt h]
    simp
  · rw [decDigits_ge (by omega)]
    simp

/-- A number below `10 ^ k` has at most `k` decimal digits. -/
lemma decDigits_length_le : ∀ (k : ℕ), 0 < k → ∀ n, n < 10 ^ k → (decDigits n).length ≤ k := by
  intro k
  induction k with
  | zero => omega
  | succ k ih =>
    intro _ n hn
    by_cases h : n < 10
    · rw [decDigits_lt h]
      simp
    · have h10 : 10 ≤ n := by omega
      have hk : 0 < k := by
        rcases Nat.eq_zero_or_pos k with rfl | hk
        · simp at hn
          omega
        · exact hk
      have hdiv : n / 10 < 10 ^ k := by
        rw [Nat.div_lt_iff_lt_mul (by norm_num)]
        calc n < 10 ^ (k + 1) := hn
        _ = 10 ^ k * 10 := by ring
      rw [decDigits_ge h10]
      simp only [List.length_append, List.length_cons, List.length_nil]
      have := ih hk (n / 10) hdiv
      omega

/-- The digit characters produced by `Nat.digitChar` parse back to their
values. -/
lemma digitVal_digitChar (d : ℕ) (h : d < 10) : digitVal (Nat.digitChar d) = d := by
  interval_cases d <;> decide

/-- Folding the decimal parse step over `decDigits n` starting from `a`
yields `a` shifted past the digits plus `n`. -/
lemma foldl_decDigits :
    ∀ (n a : ℕ),
      List.foldl (fun a c => a * 10 + digitVal c) a (decDigits n)
        = a * 10 ^ (decDigits n).length + n := by
  intro n
  induction n using Nat.strong_induction_on with
  | _ n ih =>
    intro a
    by_cases h : n < 10
    · rw [decDigits_lt h]
      simp [digitVal_digitChar n h]
    · have h10 : 10 ≤ n := by omega
      rw [decDigits_ge h10, List.foldl_append,
        ih (n / 10) (Nat.div_lt_self (by omega) (by norm_num)) a]
      simp only [List.foldl_cons, List.foldl_nil, List.length_append, List.length_cons,
        List.length_nil, digitVal_digitChar (n % 10) (Nat.mod_lt n (by norm_num))]
      rw [pow_succ]
      have hdm : n / 10 * 10 + n % 10 = n := by omega
      calc (a * 10 ^ (decDigits (n / 10)).length + n / 10) * 10 + n % 10
          = a * (10 ^ (decDigits (n / 10)).length * 10) + (n / 10 * 10 + n % 10) := by ring
        _ = a * (10 ^ (decDigits (n / 10)).length * 10) + n := by rw [hdm]

/-- Parsing the decimal digits of `n` recovers `n`. -/
lemma parseDigits_decDigits (n : ℕ) : parseDigits (decDigits n) = n := by
  unfold parseDigits
  rw [foldl_decDigits n 0]
  simp

/-! ### Claim C8 -/

/-- Claim C8, amended: for every payload byte length `n` of at most nine
decimal digits (`n < 10 ^ 9`), the built block header is `"#"` followed by
the decimal digit count of `n` followed by `n` itself, parsing the header
(digit count from offset 1, then that many bytes as a decimal number)
recovers exactly the digit count and `n`, and the header occupies
`2 + digitCount` bytes.  (For ten or more digits the single-character
digit-count field overflows and parsing no longer recovers `n`; see the
counterexample.) -/
theorem claim_C8_theorem (n : ℕ) (h : n < 10 ^ 9) :
    create_header n = "#" ++ Nat.repr (Nat.repr n).length ++ Nat.repr n
    ∧ parseHeader (create_header n) = ((Nat.repr n).length, n)
    ∧ (create_header n).length = 2 + (Nat.repr n).length := by
  have hle9 : (Nat.repr n).length ≤ 9 := by
    rw [repr_data_length]
    exact decDigits_length_le 9 (by norm_num) n h
  have hpos : 1 ≤ (Nat.repr n).length := by
    rw [repr_data_length]
    exact decDigits_length_pos n
  have hdata : (create_header n).data
      = '#' :: Nat.digitChar (Nat.repr n).length :: decDigits n := by
    show ("#" ++ Nat.repr (Nat.repr n).length ++ Nat.repr n).data = _
    rw [String.data_append, String.data_append, repr_data n,
      repr_data ((Nat.repr n).length), decDigits_lt (by omega)]
    rfl
  refine ⟨rfl, ?_, ?_⟩
  · unfold parseHeader
    rw [hdata]
    simp only [List.getD_cons_succ, List.getD_cons_zero, List.drop_succ_cons, List.drop_zero]
    rw [digitVal_digitChar ((Nat.repr n).length) (by omega), repr_data_length,
      List.take_length, parseDigits_decDigits]
  · show (create_header n).data.length = _
    rw [hdata]
    simp only [List.length_cons, repr_data_length]
    omega

/-- Witness for amended claim C8 at `n = 12345`: the header is
`"#512345"`, it parses back to digit count 5 and payload length 12345,
and it occupies 7 bytes. -/
theorem claim_C8_witness :
    parseHeader (create_header 12345) = (5, 12345)
    ∧ (create_header 12345).length = 7
    ∧ create_header 12345 = "#512345" := by
  have h := claim_C8_theorem 12345 (by norm_num)
  refine ⟨?_, ?_, by decide⟩
  · rw [h.2.1]
    decide
  · rw [h.2.2]
    decide

/-- Counterexample to claim C8 as stated over every payload byte length:
at `n = 10 ^ 9` (ten digits) the digit-count field itself has two digits,
so the parser, which reads a single digit-count character at offset 1,
recovers digit count 1 and payload length 0 instead of `n`. -/
theorem claim_C8_counterexample :
    parseHeader (create_header 1000000000) = (1, 0)
    ∧ parseHeader (create_header 1000000000)
        ≠ ((Nat.repr 1000000000).length, 1000000000) := by
  refine ⟨by decide, by decide⟩
